import Mathlib

/-!
Shallow embedding of the timeseries resampling engine from
`src/frequenz/sdk/timeseries/_resampling.py`.

Modelling choices:
* Timestamps (`datetime`) and periods (seconds as `float`) are embedded as
  rationals (`ℚ`); the claims under verification only use ordering and exact
  arithmetic on these quantities.
* Sample values are `Option Val`, where `Val` distinguishes an ordinary
  numeric value (`Val.num`, a rational) from IEEE NaN (`Val.nan`), because the
  ingestion filter (`math.isnan`) and NaN propagation through `sum` are
  relevant to the claims.  Infinities are not modelled; no claim involves them.
* Python exceptions are embedded as the inductive `Exc`; fallible operations
  return `Except Exc _`.
* The per-source background ingestion task of `_StreamingHelper` is embedded
  as an explicit task status (`TaskStatus`), and asynchronous interleavings are
  reduced to explicit state passing: a tick processes all registered entries
  and resolves every result before collecting errors, mirroring
  `asyncio.gather(..., return_exceptions=True)`.
* `Source` objects are identified by a `Nat` key (the Python registry is an
  identity-keyed `dict`); `Sink` behaviour is an oracle telling, per call,
  whether the sink raises (and which exception).
-/

namespace Resampling

/-- A sample value: either a numeric (rational-embedded float) value or NaN. -/
inductive Val where
  | num (q : ℚ)
  | nan
  deriving DecidableEq

/-- `Sample` from `frequenz.sdk.timeseries`: a timestamp and an optional value. -/
structure Sample where
  timestamp : ℚ
  value : Option Val
  deriving DecidableEq

/-- Exceptions raised by the engine or by external sources/sinks.
`err n` stands for an arbitrary distinct user/source/sink exception. -/
inductive Exc where
  | sourceStoppedError (src : ℕ)
  | assertionError
  | zeroDivisionError
  | cancelledError
  | err (n : ℕ)
  deriving DecidableEq

/-- NaN-propagating addition on values (IEEE `+` restricted to what the
claims need: exact rational addition, NaN absorbing). -/
def valAdd : Val → Val → Val
  | Val.num a, Val.num b => Val.num (a + b)
  | _, _ => Val.nan

/-- `sum(values)` over a list of values, as Python `sum` (left fold from 0). -/
def valSum (values : List Val) : Val :=
  values.foldl valAdd (Val.num 0)

/-- NaN-propagating division of a value by a (positive) count. -/
def valDiv (v : Val) (n : ℕ) : Val :=
  match v with
  | Val.num a => Val.num (a / n)
  | Val.nan => Val.nan

/-- `average` (module-level default resampling function):
asserts the input is non-empty, filters out `None` values, and returns
`sum(values) / len(values)`.  When every value is `None`, the assertion
passes but `len(values) = 0`, so Python raises `ZeroDivisionError`. -/
def average (samples : List Sample) (resampling_period_s : ℚ) : Except Exc Val :=
  if samples.length > 0 then
    let values := samples.filterMap (fun s => s.value)
    if values.length = 0 then Except.error Exc.zeroDivisionError
    else Except.ok (valDiv (valSum values) values.length)
  else Except.error Exc.assertionError

/-- The state of `_ResamplingHelper`: configuration plus the internal buffer
(`deque`, embedded as a list with the oldest sample first). -/
structure Window where
  resampling_period_s : ℚ
  max_data_age_in_periods : ℚ
  buffer : List Sample
  deriving DecidableEq

/-- `_ResamplingHelper.add_sample`: append to the tail of the buffer. -/
def add_sample (w : Window) (s : Sample) : Window :=
  { w with buffer := w.buffer ++ [s] }

/-- `_ResamplingHelper._remove_outdated_samples`: pop from the front while the
head's timestamp is not greater than the threshold; stop at the first sample
with `timestamp > threshold`. -/
def remove_outdated_samples (threshold : ℚ) : List Sample → List Sample
  | [] => []
  | s :: rest =>
      if s.timestamp > threshold then s :: rest
      else remove_outdated_samples threshold rest

/-- `_ResamplingHelper.resample(timestamp)`: evict outdated samples, then
return `Sample(timestamp, None)` on an empty buffer, otherwise apply the
resampling function to the whole buffer.  The eviction is a state change that
persists even if the resampling function raises.  The resampling function `f`
is passed explicitly (the Python object stores it at construction). -/
def helper_resample (f : List Sample → ℚ → Except Exc Val) (w : Window)
    (timestamp : ℚ) : Except Exc Sample × Window :=
  match remove_outdated_samples
      (timestamp - w.max_data_age_in_periods * w.resampling_period_s) w.buffer with
  | [] => (Except.ok ⟨timestamp, none⟩, { w with buffer := [] })
  | buf =>
      ((f buf w.resampling_period_s).map (fun v => ⟨timestamp, some v⟩),
       { w with buffer := buf })

/-- The status of the background receiving task of a `_StreamingHelper`:
still running, finished cleanly (source exhausted), or finished with an
exception (source failure, or cancellation by `stop()`). -/
inductive TaskStatus where
  | running
  | doneClean
  | doneError (e : Exc)
  deriving DecidableEq

/-- The state of a `_StreamingHelper`: its `_ResamplingHelper` window and the
status of its `_receive_samples` task. -/
structure Stream where
  task : TaskStatus
  window : Window
  deriving DecidableEq

/-- The ingestion filter in `_StreamingHelper._receive_samples`:
`sample.value is not None and not math.isnan(sample.value)`. -/
def acceptSample (s : Sample) : Bool :=
  match s.value with
  | some (Val.num _) => true
  | _ => false

/-- `_StreamingHelper._receive_samples` over a finite batch of samples yielded
by the source: each accepted sample is pushed into the window via
`add_sample`, in source order. -/
def receive_samples (w : Window) (incoming : List Sample) : Window :=
  incoming.foldl (fun acc s => if acceptSample s then add_sample acc s else acc) w

/-- `_StreamingHelper.resample(timestamp)`.
If the receiving task is done: re-raise its exception if it had one, else
raise `SourceStoppedError`.  Otherwise compute the new sample via the helper
and send it to the sink; `sinkFail` is the oracle for whether this sink call
raises.  The result `Except.ok out` means `out` was delivered to the sink.
Note the helper's eviction happens before the sink call, so the window update
persists even when the sink raises. -/
def stream_resample (f : List Sample → ℚ → Except Exc Val) (src : ℕ)
    (st : Stream) (sinkFail : Option Exc) (timestamp : ℚ) :
    Except Exc Sample × Stream :=
  match st.task with
  | TaskStatus.doneError e => (Except.error e, st)
  | TaskStatus.doneClean => (Except.error (Exc.sourceStoppedError src), st)
  | TaskStatus.running =>
      match helper_resample f st.window timestamp with
      | (Except.error e, w') => (Except.error e, { st with window := w' })
      | (Except.ok out, w') =>
          match sinkFail with
          | some e => (Except.error e, { st with window := w' })
          | none => (Except.ok out, { st with window := w' })

/-- A sequence of `resample` calls on one `_StreamingHelper`, threading its
state; each call comes with its sink-failure oracle and query timestamp.
Returns the list of per-call results and the final state. -/
def stream_resample_calls (f : List Sample → ℚ → Except Exc Val) (src : ℕ) :
    Stream → List (Option Exc × ℚ) → List (Except Exc Sample) × Stream
  | st, [] => ([], st)
  | st, (sf, t) :: rest =>
      let r := stream_resample f src st sf t
      let tail := stream_resample_calls f src r.2 rest
      (r.1 :: tail.1, tail.2)

/-- The state of a `Resampler`: configuration and the registry
`self._resamplers` (an insertion-ordered, identity-keyed dict, embedded as an
association list with `Nat` keys). -/
structure ResamplerState where
  resampling_period_s : ℚ
  max_data_age_in_periods : ℚ
  resamplers : List (ℕ × Stream)
  deriving DecidableEq

/-- The fresh `_StreamingHelper` built by `add_timeseries`: empty window,
receiving task just started. -/
def freshStream (r : ResamplerState) : Stream :=
  { task := TaskStatus.running
    window :=
      { resampling_period_s := r.resampling_period_s
        max_data_age_in_periods := r.max_data_age_in_periods
        buffer := [] } }

/-- `Resampler.add_timeseries(source, sink)`: if `source` is already a key of
the registry return `False` with no effect; else insert a fresh entry (at the
end, as dict insertion does) and return `True`. -/
def add_timeseries (r : ResamplerState) (src : ℕ) : Bool × ResamplerState :=
  if r.resamplers.any (fun e => e.1 = src) then (false, r)
  else (true, { r with resamplers := r.resamplers ++ [(src, freshStream r)] })

/-- `Resampler.remove_timeseries(source)`: delete the entry for `src` if
present (returning `True`), else return `False` with no effect.  Registry keys
are unique (enforced by `add_timeseries`), so `del` removes the sole match. -/
def remove_timeseries (r : ResamplerState) (src : ℕ) : Bool × ResamplerState :=
  if r.resamplers.any (fun e => e.1 = src) then
    (true, { r with resamplers := r.resamplers.filter (fun e => e.1 ≠ src) })
  else (false, r)

/-- `Resampler.stop()`: cancel every registered entry's receiving task
(`cancel_and_await`); a cancelled task is done with `CancelledError` as its
outcome.  The registry itself is not touched. -/
def resampler_stop (r : ResamplerState) : ResamplerState :=
  { r with
    resamplers := r.resamplers.map
      (fun e => (e.1, { e.2 with task := TaskStatus.doneError Exc.cancelledError })) }

/-- One tick of `Resampler.resample()`: fan out `stream_resample` over every
registered entry (as `asyncio.gather(..., return_exceptions=True)`, which
resolves every result), returning the updated registry entries and the list
of per-source results in registry order. -/
def tick (f : List Sample → ℚ → Except Exc Val) (entries : List (ℕ × Stream))
    (sinkFail : ℕ → Option Exc) (t : ℚ) :
    List (ℕ × Stream) × List (ℕ × Except Exc Sample) :=
  let results := entries.map
    (fun e => (e.1, stream_resample f e.1 e.2 (sinkFail e.1) t))
  (results.map (fun e => (e.1, e.2.2)), results.map (fun e => (e.1, e.2.1)))

/-- The `exceptions` dict built after the gather: the mapping from each source
whose result was an exception to that exception, in registry order. -/
def tickErrors (results : List (ℕ × Except Exc Sample)) : List (ℕ × Exc) :=
  results.filterMap
    (fun e => match e.2 with
      | Except.error exc => some (e.1, exc)
      | Except.ok _ => none)

/-- The loop of `Resampler.resample(one_shot)` over a finite schedule of timer
ticks (each tick paired with its sink-failure oracle).  Per tick: fan out and
resolve all entries, then raise `ResamplingError(exceptions)` if any entry
failed, then break if `one_shot`, else continue with the next tick.
`Except.error errs` embeds raising `ResamplingError` with the mapping `errs`;
`Except.ok` returns the final registry entries. -/
def resample_loop (f : List Sample → ℚ → Except Exc Val) (oneShot : Bool) :
    List (ℚ × (ℕ → Option Exc)) → List (ℕ × Stream) →
    Except (List (ℕ × Exc)) (List (ℕ × Stream))
  | [], entries => Except.ok entries
  | (t, sf) :: rest, entries =>
      let step := tick f entries sf t
      let errs := tickErrors step.2
      if errs.isEmpty then
        if oneShot then Except.ok step.1
        else resample_loop f oneShot rest step.1
      else Except.error errs

/-! ## Shared lemmas about eviction -/

lemma mem_of_mem_remove_outdated {th : ℚ} {l : List Sample} {x : Sample}
    (hx : x ∈ remove_outdated_samples th l) : x ∈ l := by
  induction l with
  | nil => simp [remove_outdated_samples] at hx
  | cons a rest ih =>
      by_cases h : a.timestamp > th
      · simpa [remove_outdated_samples, h] using hx
      · simp only [remove_outdated_samples, h, if_false] at hx
        exact List.mem_cons_of_mem a (ih hx)

lemma remove_outdated_retains {th : ℚ} {l : List Sample} {x : Sample}
    (hx : x ∈ l) (hgt : x.timestamp > th) :
    x ∈ remove_outdated_samples th l := by
  induction l with
  | nil => simp at hx
  | cons a rest ih =>
      by_cases h : a.timestamp > th
      · simpa [remove_outdated_samples, h] using hx
      · simp only [remove_outdated_samples, h, if_false]
        rcases List.mem_cons.mp hx with heq | hmem
        · exact absurd (heq ▸ hgt) h
        · exact ih hmem

lemma remove_outdated_all_gt {th : ℚ} {l : List Sample}
    (hs : l.Pairwise (fun a b => a.timestamp ≤ b.timestamp)) :
    ∀ x ∈ remove_outdated_samples th l, x.timestamp > th := by
  induction l with
  | nil => simp [remove_outdated_samples]
  | cons a rest ih =>
      rcases List.pairwise_cons.mp hs with ⟨hhead, htail⟩
      by_cases h : a.timestamp > th
      · simp only [remove_outdated_samples, h, if_true]
        intro x hx
        rcases List.mem_cons.mp hx with heq | hmem
        · exact heq ▸ h
        · exact lt_of_lt_of_le h (hhead x hmem)
      · simp only [remove_outdated_samples, h, if_false]
        exact ih htail

lemma helper_resample_window (f : List Sample → ℚ → Except Exc Val)
    (w : Window) (t : ℚ) :
    (helper_resample f w t).2 = { w with
      buffer := (remove_outdated_samples (t - w.max_data_age_in_periods * w.resampling_period_s) w.buffer) } := by
  unfold helper_resample
  cases hbuf : remove_outdated_samples
      (t - w.max_data_age_in_periods * w.resampling_period_s) w.buffer <;>
    simp [hbuf]

/-! ## Claim theorems -/

/-- Claim C1 (eviction correctness): for a window whose retained samples are
in ascending timestamp order, with period `p` and age multiplier `m`, after
`resample(t)` every sample still retained satisfies `timestamp > t - p*m`,
and no sample satisfying `timestamp > t - p*m` is evicted by that call. -/
theorem eviction_correct (f : List Sample → ℚ → Except Exc Val)
    (w : Window) (t : ℚ)
    (hsorted : w.buffer.Pairwise (fun a b => a.timestamp ≤ b.timestamp)) :
    (∀ s ∈ (helper_resample f w t).2.buffer,
        s.timestamp > t - w.resampling_period_s * w.max_data_age_in_periods) ∧
    (∀ s ∈ w.buffer,
        s.timestamp > t - w.resampling_period_s * w.max_data_age_in_periods →
        s ∈ (helper_resample f w t).2.buffer) := by
  rw [helper_resample_window]
  rw [show w.max_data_age_in_periods * w.resampling_period_s
        = w.resampling_period_s * w.max_data_age_in_periods from mul_comm _ _]
  exact ⟨remove_outdated_all_gt hsorted,
    fun s hs hgt => remove_outdated_retains hs hgt⟩

/-- Witness for C1 at a concrete window: with period 1, multiplier 3,
buffer `[(2, none), (9, 1)]` and query time 10, the sample at timestamp 9
(which satisfies `9 > 10 - 1*3`) is retained. -/
theorem eviction_correct_witness :
    (⟨9, some (Val.num 1)⟩ : Sample) ∈
      (helper_resample average
        ⟨1, 3, [⟨2, none⟩, ⟨9, some (Val.num 1)⟩]⟩ 10).2.buffer :=
  (eviction_correct average ⟨1, 3, [⟨2, none⟩, ⟨9, some (Val.num 1)⟩]⟩ 10
      (by norm_num [List.pairwise_cons])).2
    ⟨9, some (Val.num 1)⟩ (by simp) (by norm_num)

/-- Claim C4 (empty-window soft failure): if the window is empty after
eviction then `resample(t)` returns `Sample(t, none)` and the configured
aggregate is never consulted (the result is identical for any two aggregates
`f`, `g`); if the window is non-empty after eviction, the result is the
aggregate applied to the evicted window contents and the period. -/
theorem empty_window_soft_failure
    (f g : List Sample → ℚ → Except Exc Val) (w : Window) (t : ℚ) :
    (remove_outdated_samples
        (t - w.max_data_age_in_periods * w.resampling_period_s) w.buffer = [] →
      helper_resample f w t = (Except.ok ⟨t, none⟩, { w with buffer := [] }) ∧
      helper_resample f w t = helper_resample g w t) ∧
    (remove_outdated_samples
        (t - w.max_data_age_in_periods * w.resampling_period_s) w.buffer ≠ [] →
      (helper_resample f w t).1 =
        (f (remove_outdated_samples
              (t - w.max_data_age_in_periods * w.resampling_period_s) w.buffer)
           w.resampling_period_s).map (fun v => ⟨t, some v⟩)) := by
  constructor
  · intro hempty
    constructor
    · unfold helper_resample
      rw [hempty]
    · unfold helper_resample
      rw [hempty]
  · intro hne
    unfold helper_resample
    cases hbuf : remove_outdated_samples
        (t - w.max_data_age_in_periods * w.resampling_period_s) w.buffer with
    | nil => exact absurd hbuf hne
    | cons a rest => rfl

/-- Witness for C4: with period 1, multiplier 2, single sample at
timestamp 0 and query time 10, the window is empty after eviction, so the
result is `Sample(10, none)` for the default aggregate. -/
theorem empty_window_soft_failure_witness :
    helper_resample average ⟨1, 2, [⟨0, some (Val.num 5)⟩]⟩ 10 =
      (Except.ok ⟨10, none⟩, ⟨1, 2, []⟩) :=
  ((empty_window_soft_failure average average
      ⟨1, 2, [⟨0, some (Val.num 5)⟩]⟩ 10).1
    (by norm_num [remove_outdated_samples])).1

/-! ## Lemmas about the default aggregate -/

/-- The numeric (non-`None`, non-NaN) values of a sample list, as rationals. -/
def numericValues (samples : List Sample) : List ℚ :=
  samples.filterMap (fun s =>
    match s.value with
    | some (Val.num q) => some q
    | _ => none)

lemma foldl_valAdd_num (a : ℚ) (qs : List ℚ) :
    (qs.map Val.num).foldl valAdd (Val.num a) = Val.num (a + qs.sum) := by
  induction qs generalizing a with
  | nil => simp
  | cons q rest ih => simp [valAdd, ih, add_assoc]

lemma valSum_num (qs : List ℚ) : valSum (qs.map Val.num) = Val.num qs.sum := by
  simp [valSum, foldl_valAdd_num]

lemma filterMap_value_of_no_nan {samples : List Sample}
    (h : ∀ s ∈ samples, s.value ≠ some Val.nan) :
    samples.filterMap (fun s => s.value) = (numericValues samples).map Val.num := by
  induction samples with
  | nil => simp [numericValues]
  | cons a rest ih =>
      have ha := h a (List.mem_cons_self a rest)
      have htail : ∀ s ∈ rest, s.value ≠ some Val.nan :=
        fun s hs => h s (List.mem_cons_of_mem a hs)
      cases hv : a.value with
      | none =>
          have h1 : (a :: rest).filterMap (fun s => s.value) =
              rest.filterMap (fun s => s.value) := by
            simp [List.filterMap_cons, hv]
          have h2 : numericValues (a :: rest) = numericValues rest := by
            simp [numericValues, List.filterMap_cons, hv]
          rw [h1, h2, ih htail]
      | some v =>
          cases v with
          | num q =>
              have h1 : (a :: rest).filterMap (fun s => s.value) =
                  Val.num q :: rest.filterMap (fun s => s.value) := by
                simp [List.filterMap_cons, hv]
              have h2 : numericValues (a :: rest) = q :: numericValues rest := by
                simp [numericValues, List.filterMap_cons, hv]
              rw [h1, h2, ih htail, List.map_cons]
          | nan => exact absurd hv ha

/-- Claim C5 counterexample: on the all-`None` input `[Sample(0, None)]`, the
default `average` fails with `ZeroDivisionError`, not with its assertion (the
assertion only checks the input sequence is non-empty, and passes here). -/
theorem average_assertion_counterexample :
    average [⟨0, none⟩] 1 = Except.error Exc.zeroDivisionError ∧
    average [⟨0, none⟩] 1 ≠ Except.error Exc.assertionError := by
  refine ⟨rfl, fun h => ?_⟩
  rw [show average [⟨0, none⟩] 1 = Except.error Exc.zeroDivisionError from rfl] at h
  exact absurd (Except.error.inj h) (by simp)

/-- Claim C5 (amended): for every non-empty sequence of samples in which every
value is `None`, the default mean fails with `ZeroDivisionError` (the numeric
subset is empty so `len(values)` is zero); the assertion on the input being
non-empty passes and is not what fails. -/
theorem average_all_none_zero_division (samples : List Sample) (p : ℚ)
    (hne : samples ≠ []) (hall : ∀ s ∈ samples, s.value = none) :
    average samples p = Except.error Exc.zeroDivisionError := by
  have hlen : 0 < samples.length := List.length_pos.mpr hne
  have hnil : samples.filterMap (fun s => s.value) = [] := by
    rw [List.filterMap_eq_nil_iff]
    exact hall
  unfold average
  simp [hlen, hnil]

/-- Witness for C5's amended theorem at the concrete all-`None` input
`[Sample(0, None), Sample(1, None)]` with period 2. -/
theorem average_all_none_zero_division_witness :
    average [⟨0, none⟩, ⟨1, none⟩] 2 = Except.error Exc.zeroDivisionError :=
  average_all_none_zero_division [⟨0, none⟩, ⟨1, none⟩] 2 (by simp) (by simp)

/-- Claim C6 (default mean value): for a non-empty input with at least one
non-`None` value, `average` returns the sum of the non-`None` values divided
by their count; when no value is NaN this is the exact rational arithmetic
mean of the numeric values; in particular `[1.0, None, 3.0]` yields `2.0`
(for any period). -/
theorem average_mean (samples : List Sample) (p : ℚ)
    (hne : samples ≠ [])
    (hnv : ∃ s ∈ samples, s.value ≠ none) :
    average samples p =
      Except.ok (valDiv (valSum (samples.filterMap (fun s => s.value)))
        (samples.filterMap (fun s => s.value)).length) ∧
    ((∀ s ∈ samples, s.value ≠ some Val.nan) →
      average samples p =
        Except.ok (Val.num
          ((numericValues samples).sum / (numericValues samples).length))) ∧
    average [⟨0, some (Val.num 1)⟩, ⟨1, none⟩, ⟨2, some (Val.num 3)⟩] p =
      Except.ok (Val.num 2) := by
  have hlen : 0 < samples.length := List.length_pos.mpr hne
  have hvne : samples.filterMap (fun s => s.value) ≠ [] := by
    obtain ⟨s, hs, hv⟩ := hnv
    cases hval : s.value with
    | none => exact absurd hval hv
    | some v =>
        intro hnil
        have : v ∈ samples.filterMap (fun s => s.value) :=
          List.mem_filterMap.mpr ⟨s, hs, hval⟩
        rw [hnil] at this
        simp at this
  have hfirst : average samples p =
      Except.ok (valDiv (valSum (samples.filterMap (fun s => s.value)))
        (samples.filterMap (fun s => s.value)).length) := by
    unfold average
    simp [hlen, List.length_eq_zero, hvne]
  refine ⟨hfirst, fun hnonan => ?_,
    by norm_num [average, List.filterMap_cons, valSum, valAdd, valDiv]⟩
  rw [hfirst, filterMap_value_of_no_nan hnonan, valSum_num]
  simp [valDiv]

/-- Witness for C6 at the concrete input `[1.0, None, 3.0]` with period 1:
the default aggregate returns 2. -/
theorem average_mean_witness :
    average [⟨0, some (Val.num 1)⟩, ⟨1, none⟩, ⟨2, some (Val.num 3)⟩] 1 =
      Except.ok (Val.num 2) :=
  (average_mean [⟨0, some (Val.num 1)⟩, ⟨1, none⟩, ⟨2, some (Val.num 3)⟩] 1
    (by simp) ⟨⟨0, some (Val.num 1)⟩, by simp, by simp⟩).2.2

/-! ## Lemmas about the streaming helper -/

lemma stream_resample_calls_doneError
    (f : List Sample → ℚ → Except Exc Val) (src : ℕ) (e : Exc) :
    ∀ (calls : List (Option Exc × ℚ)) (st : Stream),
      st.task = TaskStatus.doneError e →
      ∀ r ∈ (stream_resample_calls f src st calls).1, r = Except.error e := by
  intro calls
  induction calls with
  | nil => intro st hst r hr; simp [stream_resample_calls] at hr
  | cons c rest ih =>
      intro st hst r hr
      obtain ⟨sf, t⟩ := c
      have hstep : stream_resample f src st sf t = (Except.error e, st) := by
        unfold stream_resample
        rw [hst]
      simp only [stream_resample_calls, hstep] at hr
      rcases List.mem_cons.mp hr with h | h
      · exact h
      · exact ih st hst r h

/-- Claim C2 (per-entry resample error contract): a clean termination of the
ingestion task makes `resample` raise `SourceStoppedError`; an erroneous
termination makes it re-raise that same error, and every subsequent call does
too (sticky, the state is unchanged); otherwise it delegates to the window's
`resample` and forwards the result to the sink, and a sink failure fails only
that call (the task stays running, so the failure is not sticky). -/
theorem stream_resample_error_contract
    (f : List Sample → ℚ → Except Exc Val) (src : ℕ) (st : Stream)
    (sinkFail : Option Exc) (t : ℚ) :
    (st.task = TaskStatus.doneClean →
      stream_resample f src st sinkFail t =
        (Except.error (Exc.sourceStoppedError src), st)) ∧
    (∀ e, st.task = TaskStatus.doneError e →
      stream_resample f src st sinkFail t = (Except.error e, st) ∧
      ∀ calls, ∀ r ∈ (stream_resample_calls f src st calls).1,
        r = Except.error e) ∧
    (st.task = TaskStatus.running →
      (stream_resample f src st sinkFail t).2 =
        { st with window := (helper_resample f st.window t).2 } ∧
      (stream_resample f src st sinkFail t).2.task = TaskStatus.running ∧
      (sinkFail = none →
        (stream_resample f src st sinkFail t).1 =
          (helper_resample f st.window t).1) ∧
      (∀ e out, sinkFail = some e →
        (helper_resample f st.window t).1 = Except.ok out →
        (stream_resample f src st sinkFail t).1 = Except.error e)) := by
  refine ⟨?_, ?_, ?_⟩
  · intro h
    unfold stream_resample
    rw [h]
  · intro e h
    refine ⟨?_, fun calls r hr =>
      stream_resample_calls_doneError f src e calls st h r hr⟩
    unfold stream_resample
    rw [h]
  · intro h
    cases hh : helper_resample f st.window t with
    | mk r1 w' =>
        cases r1 with
        | error e0 => cases sinkFail <;> simp [stream_resample, h, hh]
        | ok out => cases sinkFail <;> simp [stream_resample, h, hh]

/-- Witness for C2: a helper whose ingestion task ended cleanly raises
`SourceStoppedError` for its source (source key 7). -/
theorem stream_resample_error_contract_witness :
    stream_resample average 7 ⟨TaskStatus.doneClean, ⟨1, 3, []⟩⟩ none 5 =
      (Except.error (Exc.sourceStoppedError 7),
       ⟨TaskStatus.doneClean, ⟨1, 3, []⟩⟩) :=
  (stream_resample_error_contract average 7
    ⟨TaskStatus.doneClean, ⟨1, 3, []⟩⟩ none 5).1 rfl

/-! ## Lemmas about one tick of the resampler loop -/

lemma tick_fst (f : List Sample → ℚ → Except Exc Val)
    (entries : List (ℕ × Stream)) (sinkFail : ℕ → Option Exc) (t : ℚ) :
    (tick f entries sinkFail t).1 =
      entries.map (fun e => (e.1, (stream_resample f e.1 e.2 (sinkFail e.1) t).2)) := by
  simp [tick, List.map_map, Function.comp]

lemma tick_snd (f : List Sample → ℚ → Except Exc Val)
    (entries : List (ℕ × Stream)) (sinkFail : ℕ → Option Exc) (t : ℚ) :
    (tick f entries sinkFail t).2 =
      entries.map (fun e => (e.1, (stream_resample f e.1 e.2 (sinkFail e.1) t).1)) := by
  simp [tick, List.map_map, Function.comp]

/-- Claim C3 (aggregate tick failure with isolation): in one tick, the error
mapping contains `(src, e)` exactly when the entry for `src` failed with `e`;
every entry's updated state is committed and every succeeding entry's sample
appears among the resolved-and-delivered results regardless of other entries'
failures; the tick's `resample()` call raises the aggregate error (carrying
exactly that mapping) when the mapping is non-empty and raises nothing when it
is empty. -/
theorem tick_failure_isolation (f : List Sample → ℚ → Except Exc Val)
    (entries : List (ℕ × Stream)) (sinkFail : ℕ → Option Exc) (t : ℚ) :
    (∀ src e, (src, e) ∈ tickErrors (tick f entries sinkFail t).2 ↔
      ∃ st, (src, st) ∈ entries ∧
        (stream_resample f src st (sinkFail src) t).1 = Except.error e) ∧
    (∀ src st, (src, st) ∈ entries →
      (src, (stream_resample f src st (sinkFail src) t).2) ∈
        (tick f entries sinkFail t).1 ∧
      ∀ out, (stream_resample f src st (sinkFail src) t).1 = Except.ok out →
        (src, Except.ok out) ∈ (tick f entries sinkFail t).2) ∧
    (tickErrors (tick f entries sinkFail t).2 = [] →
      resample_loop f true [(t, sinkFail)] entries =
        Except.ok (tick f entries sinkFail t).1) ∧
    (tickErrors (tick f entries sinkFail t).2 ≠ [] →
      resample_loop f true [(t, sinkFail)] entries =
        Except.error (tickErrors (tick f entries sinkFail t).2)) := by
  refine ⟨?_, ?_, ?_, ?_⟩
  · intro src e
    rw [tick_snd]
    constructor
    · intro hmem
      obtain ⟨a, ha, hmatch⟩ := List.mem_filterMap.mp hmem
      obtain ⟨⟨s0, st0⟩, hmem0, rfl⟩ := List.mem_map.mp ha
      cases hres : (stream_resample f s0 st0 (sinkFail s0) t).1 with
      | error exc =>
          simp only [hres] at hmatch
          obtain ⟨h1, h2⟩ := Prod.mk.injEq .. ▸ Option.some.inj hmatch
          subst h1
          subst h2
          exact ⟨st0, hmem0, hres⟩
      | ok out => simp [hres] at hmatch
    · rintro ⟨st0, hmem0, hres⟩
      refine List.mem_filterMap.mpr ⟨(src, Except.error e), ?_, rfl⟩
      have := List.mem_map_of_mem
        (fun e => (e.1, (stream_resample f e.1 e.2 (sinkFail e.1) t).1)) hmem0
      simpa [hres] using this
  · intro src st hmem
    constructor
    · rw [tick_fst]
      have := List.mem_map_of_mem
        (fun e => (e.1, (stream_resample f e.1 e.2 (sinkFail e.1) t).2)) hmem
      simpa using this
    · intro out hout
      rw [tick_snd]
      have := List.mem_map_of_mem
        (fun e => (e.1, (stream_resample f e.1 e.2 (sinkFail e.1) t).1)) hmem
      simpa [hout] using this
  · intro hempty
    simp [resample_loop, hempty]
  · intro hne
    simp [resample_loop, List.isEmpty_iff, hne]

/-- Witness for C3: with one registered entry whose ingestion task ended
cleanly, the tick's error mapping contains that source paired with its
`SourceStoppedError`. -/
theorem tick_failure_isolation_witness :
    (0, Exc.sourceStoppedError 0) ∈
      tickErrors (tick average [(0, ⟨TaskStatus.doneClean, ⟨1, 3, []⟩⟩)]
        (fun _ => none) 5).2 :=
  ((tick_failure_isolation average [(0, ⟨TaskStatus.doneClean, ⟨1, 3, []⟩⟩)]
      (fun _ => none) 5).1 0 (Exc.sourceStoppedError 0)).mpr
    ⟨⟨TaskStatus.doneClean, ⟨1, 3, []⟩⟩, by simp, rfl⟩

/-- Claim C9 (one-shot determinism): with `one_shot = true` the loop's result
on any tick schedule equals its result on the first tick alone — it fans out
once and returns (when nothing failed) or raises the aggregate error (when
something failed), never processing a second tick. -/
theorem one_shot_determinism (f : List Sample → ℚ → Except Exc Val)
    (t : ℚ) (sf : ℕ → Option Exc) (rest : List (ℚ × (ℕ → Option Exc)))
    (entries : List (ℕ × Stream)) :
    resample_loop f true ((t, sf) :: rest) entries =
      resample_loop f true [(t, sf)] entries ∧
    (tickErrors (tick f entries sf t).2 = [] →
      resample_loop f true ((t, sf) :: rest) entries =
        Except.ok (tick f entries sf t).1) ∧
    ∀ errs, tickErrors (tick f entries sf t).2 = errs → errs ≠ [] →
      resample_loop f true ((t, sf) :: rest) entries = Except.error errs := by
  refine ⟨?_, ?_, ?_⟩
  · cases hE : tickErrors (tick f entries sf t).2 with
    | nil => simp [resample_loop, hE]
    | cons a l => simp [resample_loop, hE]
  · intro hempty
    simp [resample_loop, hempty]
  · intro errs herrs hne
    simp [resample_loop, herrs, List.isEmpty_iff, hne]

/-- Witness for C9: with no registered entries, a one-shot run over a two-tick
schedule returns after the first tick with the (empty) registry. -/
theorem one_shot_determinism_witness :
    resample_loop average true [(5, fun _ => none), (6, fun _ => none)] [] =
      Except.ok [] :=
  (one_shot_determinism average 5 (fun _ => none) [(6, fun _ => none)] []).2.1 rfl

/-! ## Lemmas about the registry -/

lemma any_key_eq (l : List (ℕ × Stream)) (src : ℕ) :
    l.any (fun e => e.1 = src) = true ↔ src ∈ l.map Prod.fst := by
  rw [List.any_eq_true]
  constructor
  · rintro ⟨a, ha, hp⟩
    exact List.mem_map.mpr ⟨a, ha, by simpa using hp⟩
  · intro h
    obtain ⟨a, ha, rfl⟩ := List.mem_map.mp h
    exact ⟨a, ha, by simp⟩

/-- Claim C7 (registration return values and no-op rejection):
`add_timeseries` on an unregistered source returns `True` and appends exactly
one fresh entry; on a registered source it returns `False` with no effect.
`remove_timeseries` on a registered source returns `True` and erases exactly
that entry (the source is no longer a key, all other entries survive); on an
unregistered source it returns `False` with no effect. -/
theorem registration_contract (r : ResamplerState) (src : ℕ) :
    (src ∉ r.resamplers.map Prod.fst →
      add_timeseries r src =
        (true, { r with resamplers := r.resamplers ++ [(src, freshStream r)] })) ∧
    (src ∈ r.resamplers.map Prod.fst → add_timeseries r src = (false, r)) ∧
    (src ∈ r.resamplers.map Prod.fst →
      (remove_timeseries r src).1 = true ∧
      (remove_timeseries r src).2.resamplers =
        r.resamplers.filter (fun e => e.1 ≠ src) ∧
      src ∉ (remove_timeseries r src).2.resamplers.map Prod.fst ∧
      ∀ e ∈ r.resamplers, e.1 ≠ src →
        e ∈ (remove_timeseries r src).2.resamplers) ∧
    (src ∉ r.resamplers.map Prod.fst → remove_timeseries r src = (false, r)) := by
  refine ⟨?_, ?_, ?_, ?_⟩
  · intro h
    have hc : r.resamplers.any (fun e => e.1 = src) = false := by
      rw [Bool.eq_false_iff]
      intro hc
      exact h ((any_key_eq _ _).mp hc)
    simp [add_timeseries, hc]
  · intro h
    simp [add_timeseries, (any_key_eq _ _).mpr h]
  · intro h
    have hc := (any_key_eq _ _).mpr h
    refine ⟨by simp [remove_timeseries, hc], by simp [remove_timeseries, hc],
      ?_, ?_⟩
    · simp [remove_timeseries, hc, List.mem_map, List.mem_filter]
    · intro e hmem hne
      simp only [remove_timeseries, hc, if_true]
      exact List.mem_filter.mpr ⟨hmem, by simpa using hne⟩
  · intro h
    have hc : r.resamplers.any (fun e => e.1 = src) = false := by
      rw [Bool.eq_false_iff]
      intro hc
      exact h ((any_key_eq _ _).mp hc)
    simp [remove_timeseries, hc]

/-- Witness for C7: registering the already-registered source 0 is rejected
without effect. -/
theorem registration_contract_witness :
    add_timeseries ⟨1, 3, [(0, ⟨TaskStatus.running, ⟨1, 3, []⟩⟩)]⟩ 0 =
      (false, ⟨1, 3, [(0, ⟨TaskStatus.running, ⟨1, 3, []⟩⟩)]⟩) :=
  (registration_contract ⟨1, 3, [(0, ⟨TaskStatus.running, ⟨1, 3, []⟩⟩)]⟩ 0).2.1
    (by simp)

/-- Claim C10 (frame property of `stop()`): stopping cancels every entry's
ingestion task but leaves the registry's keys unchanged, so a previously
registered source is still registered — `add_timeseries` on it still returns
`False` with no effect and `remove_timeseries` still returns `True`; and
`add_timeseries` never removes an existing key (only `remove_timeseries`
shrinks the registry). -/
theorem stop_frame (r : ResamplerState) (src : ℕ) :
    (resampler_stop r).resamplers.map Prod.fst = r.resamplers.map Prod.fst ∧
    (src ∈ r.resamplers.map Prod.fst →
      add_timeseries (resampler_stop r) src = (false, resampler_stop r) ∧
      (remove_timeseries (resampler_stop r) src).1 = true) ∧
    (∀ k ∈ r.resamplers.map Prod.fst,
      k ∈ (add_timeseries r src).2.resamplers.map Prod.fst) := by
  have hkeys : (resampler_stop r).resamplers.map Prod.fst =
      r.resamplers.map Prod.fst := by
    simp [resampler_stop, List.map_map, Function.comp]
  refine ⟨hkeys, ?_, ?_⟩
  · intro h
    have h' : src ∈ (resampler_stop r).resamplers.map Prod.fst := hkeys ▸ h
    have hc := (any_key_eq _ _).mpr h'
    exact ⟨by simp [add_timeseries, hc], by simp [remove_timeseries, hc]⟩
  · intro k hk
    unfold add_timeseries
    by_cases hc : r.resamplers.any (fun e => e.1 = src) = true
    · simpa [hc] using hk
    · rw [Bool.not_eq_true] at hc
      simp only [hc, Bool.false_eq_true, if_false]
      simp only [List.map_append, List.mem_append]
      exact Or.inl hk

/-- Witness for C10: after stopping a resampler with source 4 registered,
re-adding source 4 is still rejected without effect. -/
theorem stop_frame_witness :
    add_timeseries (resampler_stop ⟨1, 3, [(4, ⟨TaskStatus.running, ⟨1, 3, []⟩⟩)]⟩) 4 =
      (false, resampler_stop ⟨1, 3, [(4, ⟨TaskStatus.running, ⟨1, 3, []⟩⟩)]⟩) :=
  ((stop_frame ⟨1, 3, [(4, ⟨TaskStatus.running, ⟨1, 3, []⟩⟩)]⟩ 4).2.1
    (by simp)).1

/-! ## Ingestion filtering -/

lemma receive_samples_buffer (w : Window) (incoming : List Sample) :
    (receive_samples w incoming).buffer =
      w.buffer ++ incoming.filter acceptSample := by
  induction incoming generalizing w with
  | nil => simp [receive_samples]
  | cons s rest ih =>
      by_cases hacc : acceptSample s
      · simp [receive_samples, List.foldl_cons, hacc, List.filter_cons] at ih ⊢
        rw [ih, add_sample]
        simp
      · simp [receive_samples, List.foldl_cons, hacc, List.filter_cons] at ih ⊢
        rw [ih]

lemma acceptSample_iff_num (s : Sample) :
    acceptSample s = true ↔ ∃ q, s.value = some (Val.num q) := by
  cases hv : s.value with
  | none => simp [acceptSample, hv]
  | some v => cases v <;> simp [acceptSample, hv]

/-- Claim C8 (NaN/None filtering invariant): the ingestion path adds an
incoming sample to the window iff its value is neither `None` nor NaN; hence
if every sample already in the window has a numeric value, so does every
sample in the window after ingestion, and every sample the window hands to
the aggregate (the evicted buffer) has a numeric value — a NaN-valued sample
from a source never appears in an aggregate computation. -/
theorem ingestion_filter (w : Window) (incoming : List Sample) :
    (receive_samples w incoming).buffer =
      w.buffer ++ incoming.filter acceptSample ∧
    (∀ s : Sample, acceptSample s = true ↔
      (s.value ≠ none ∧ s.value ≠ some Val.nan)) ∧
    ((∀ s ∈ w.buffer, ∃ q, s.value = some (Val.num q)) →
      (∀ s ∈ (receive_samples w incoming).buffer,
        ∃ q, s.value = some (Val.num q)) ∧
      ∀ th s, s ∈ remove_outdated_samples th (receive_samples w incoming).buffer →
        ∃ q, s.value = some (Val.num q)) := by
  refine ⟨receive_samples_buffer w incoming, ?_, ?_⟩
  · intro s
    cases hv : s.value with
    | none => simp [acceptSample, hv]
    | some v => cases v <;> simp [acceptSample, hv]
  · intro hinv
    have hall : ∀ s ∈ (receive_samples w incoming).buffer,
        ∃ q, s.value = some (Val.num q) := by
      intro s hs
      rw [receive_samples_buffer] at hs
      rcases List.mem_append.mp hs with h | h
      · exact hinv s h
      · exact (acceptSample_iff_num s).mp (List.mem_filter.mp h).2
    exact ⟨hall, fun th s hs => hall s (mem_of_mem_remove_outdated hs)⟩

/-- Witness for C8: ingesting a NaN sample, a numeric sample and a `None`
sample into an empty window keeps only the numeric one, whose value is
numeric. -/
theorem ingestion_filter_witness :
    ∃ q, (⟨1, some (Val.num 2)⟩ : Sample).value = some (Val.num q) :=
  ((ingestion_filter ⟨1, 3, []⟩
      [⟨0, some Val.nan⟩, ⟨1, some (Val.num 2)⟩, ⟨2, none⟩]).2.2
    (by simp)).1 ⟨1, some (Val.num 2)⟩ (by decide)

end Resampling
